import Mathlib

/-!
Verification of the lua-mosquitto v5 binding layer: a shallow embedding of
the status translator, the MQTT v5 property codec, and the callback
registry of src/lua-mosquitto.c, with theorems settling the behavioural
claims about them.

Conventions of the embedding:
  - machine integers are modelled as Int or Nat with explicit bounds;
  - Lua byte strings are modelled as List Nat (one Nat per byte), since
    the codec passes several of them through C string functions that
    truncate at the first NUL byte;
  - calls into libmosquitto (property construction, registry lookup,
    per-command legality) are modelled from the documented behaviour of
    that external library, since the repository only links against it.
-/

namespace Mosq

/-! ### Native result codes (mosquitto.h) -/

def MOSQ_ERR_SUCCESS : Int := 0
def MOSQ_ERR_NOMEM : Int := 1
def MOSQ_ERR_PROTOCOL : Int := 2
def MOSQ_ERR_INVAL : Int := 3
def MOSQ_ERR_NO_CONN : Int := 4
def MOSQ_ERR_CONN_REFUSED : Int := 5
def MOSQ_ERR_CONN_LOST : Int := 7
def MOSQ_ERR_PAYLOAD_SIZE : Int := 9
def MOSQ_ERR_NOT_SUPPORTED : Int := 10
def MOSQ_ERR_ERRNO : Int := 14
def MOSQ_ERR_MALFORMED_UTF8 : Int := 18
def MOSQ_ERR_DUPLICATE_PROPERTY : Int := 22

/-! ### Status translator (mosq__pstatus, src/lua-mosquitto.c lines 96-128)

The C function either pushes Lua return values or raises a Lua error.
The host-visible outcome is captured by one constructor per shape; the
`nothing` constructor is the fall-through path at the end of the switch,
which returns zero Lua values. -/

/-- Host-visible outcome of the status translator. -/
inductive PStatus
  /-- lua_pushboolean(true); one return value. -/
  | success
  /-- lua_pushnil + code + message; three return values. -/
  | structured (code : Int) (msg : String)
  /-- luaL_error: a raised Lua error carrying a message. -/
  | raised (msg : String)
  /-- fall-through after the switch: zero return values. -/
  | nothing
deriving DecidableEq, Repr

/-- Shallow embedding of mosq__pstatus.  The translator calls the external
functions mosquitto_strerror and (for MOSQ_ERR_ERRNO) the C strerror on
the current errno; both are passed in as parameters together with the
errno value itself. -/
def mosq__pstatus (strerror : Int → String) (cstrerror : Int → String)
    (errno : Int) (mosq_errno : Int) : PStatus :=
  if mosq_errno = MOSQ_ERR_SUCCESS then
    .success
  else if mosq_errno = MOSQ_ERR_INVAL ∨ mosq_errno = MOSQ_ERR_NOMEM ∨
          mosq_errno = MOSQ_ERR_PROTOCOL ∨ mosq_errno = MOSQ_ERR_NOT_SUPPORTED then
    .raised (strerror mosq_errno)
  else if mosq_errno = MOSQ_ERR_NO_CONN ∨ mosq_errno = MOSQ_ERR_CONN_LOST ∨
          mosq_errno = MOSQ_ERR_PAYLOAD_SIZE then
    .structured mosq_errno (strerror mosq_errno)
  else if mosq_errno = MOSQ_ERR_ERRNO then
    .structured errno (cstrerror errno)
  else
    .nothing

/-- Boolean test for the raised (hard failure) shape. -/
def PStatus.isRaised : PStatus → Bool
  | .raised _ => true
  | _ => false

/-- Boolean test for the structured (recoverable failure) shape. -/
def PStatus.isStructured : PStatus → Bool
  | .structured _ _ => true
  | _ => false

/-! ### MQTT v5 property registry

Modelled from the external libmosquitto functions
mosquitto_string_to_property_info and
mosquitto_property_identifier_to_string, which the binding calls for
name resolution; the table is fixed by the MQTT v5 protocol. -/

/-- Property wire types (MQTT_PROP_TYPE_* of mqtt_protocol.h). -/
inductive PropType
  | BYTE | INT16 | INT32 | VARINT | BINARY | STRING | STRING_PAIR
deriving DecidableEq, Repr

/-- The static registry: property name, identifier, wire type. -/
def registryEntries : List (String × Nat × PropType) :=
  [ ("payload-format-indicator", 1, .BYTE),
    ("message-expiry-interval", 2, .INT32),
    ("content-type", 3, .STRING),
    ("response-topic", 8, .STRING),
    ("correlation-data", 9, .BINARY),
    ("subscription-identifier", 11, .VARINT),
    ("session-expiry-interval", 17, .INT32),
    ("assigned-client-identifier", 18, .STRING),
    ("server-keep-alive", 19, .INT16),
    ("authentication-method", 21, .STRING),
    ("authentication-data", 22, .BINARY),
    ("request-problem-information", 23, .BYTE),
    ("will-delay-interval", 24, .INT32),
    ("request-response-information", 25, .BYTE),
    ("response-information", 26, .STRING),
    ("server-reference", 28, .STRING),
    ("reason-string", 31, .STRING),
    ("receive-maximum", 33, .INT16),
    ("topic-alias-maximum", 34, .INT16),
    ("topic-alias", 35, .INT16),
    ("maximum-qos", 36, .BYTE),
    ("retain-available", 37, .BYTE),
    ("user-property", 38, .STRING_PAIR),
    ("maximum-packet-size", 39, .INT32),
    ("wildcard-subscription-available", 40, .BYTE),
    ("subscription-identifier-available", 41, .BYTE),
    ("shared-subscription-available", 42, .BYTE) ]

/-- Name resolution: property name to (identifier, wire type); none models
the MOSQ_ERR_INVAL return for an unknown name. -/
def mosquitto_string_to_property_info (name : String) : Option (Nat × PropType) :=
  (registryEntries.find? (fun e => e.1 == name)).map (·.2)

/-- Inverse direction, used by the decoder to key the outer table. -/
def mosquitto_property_identifier_to_string (id : Nat) : String :=
  (((registryEntries.find? (fun e => e.2.1 == id))).map (·.1)).getD ""

/-- Command constants (mqtt_protocol.h) for the six commands the binding
encodes properties for, plus the ack commands referenced by the
legality table. -/
def CMD_CONNECT : Nat := 0x10
def CMD_CONNACK : Nat := 0x20
def CMD_PUBLISH : Nat := 0x30
def CMD_PUBACK : Nat := 0x40
def CMD_PUBREC : Nat := 0x50
def CMD_PUBREL : Nat := 0x60
def CMD_PUBCOMP : Nat := 0x70
def CMD_SUBSCRIBE : Nat := 0x80
def CMD_SUBACK : Nat := 0x90
def CMD_UNSUBSCRIBE : Nat := 0xA0
def CMD_UNSUBACK : Nat := 0xB0
def CMD_DISCONNECT : Nat := 0xE0
def CMD_AUTH : Nat := 0xF0
def CMD_WILL : Nat := 0x100

/-- Per-command legality, modelled from the external libmosquitto
function mosquitto_property_check_command (the MQTT v5 table). -/
def propAllowedForCommand (id : Nat) (cmd : Nat) : Bool :=
  if id ∈ [1, 2, 3, 8, 9] then cmd ∈ [CMD_PUBLISH, CMD_WILL]
  else if id = 11 then cmd ∈ [CMD_PUBLISH, CMD_SUBSCRIBE]
  else if id = 17 then cmd ∈ [CMD_CONNECT, CMD_CONNACK, CMD_DISCONNECT]
  else if id ∈ [21, 22] then cmd ∈ [CMD_CONNECT, CMD_CONNACK, CMD_AUTH]
  else if id ∈ [18, 19, 26, 36, 37, 40, 41, 42] then cmd = CMD_CONNACK
  else if id ∈ [23, 25] then cmd = CMD_CONNECT
  else if id = 24 then cmd = CMD_WILL
  else if id = 28 then cmd ∈ [CMD_CONNACK, CMD_DISCONNECT]
  else if id = 31 then
    cmd ∈ [CMD_CONNACK, CMD_PUBACK, CMD_PUBREC, CMD_PUBREL, CMD_PUBCOMP,
           CMD_SUBACK, CMD_UNSUBACK, CMD_DISCONNECT, CMD_AUTH]
  else if id ∈ [33, 34, 39] then cmd ∈ [CMD_CONNECT, CMD_CONNACK]
  else if id = 35 then cmd = CMD_PUBLISH
  else if id = 38 then true
  else false

/-! ### MQTT UTF-8 validation

Modelled from the external libmosquitto function mosquitto_validate_utf8
(utf8_mosq.c), which mosquitto_property_add_string and
mosquitto_property_add_string_pair apply to every string value. -/

/-- The per-codepoint checks run after a codepoint has been
reconstructed: no UTF-16 surrogates, no overlong or out-of-range
encodings, no non-characters, no control characters. -/
def utf8CharOk (codelen cp : Nat) : Bool :=
  if 0xD800 ≤ cp ∧ cp ≤ 0xDFFF then false
  else if codelen = 3 ∧ cp < 0x800 then false
  else if codelen = 4 ∧ (cp < 0x10000 ∨ 0x10FFFF < cp) then false
  else if 0xFDD0 ≤ cp ∧ cp ≤ 0xFDEF then false
  else if cp % 0x10000 = 0xFFFE ∨ cp % 0x10000 = 0xFFFF then false
  else if cp ≤ 0x1F ∨ (0x7F ≤ cp ∧ cp ≤ 0x9F) then false
  else true

/-- A UTF-8 continuation byte (10xxxxxx). -/
def utf8IsCont (c : Nat) : Bool :=
  if 0x80 ≤ c ∧ c ≤ 0xBF then true else false

/-- mosquitto_validate_utf8 over a byte string: NUL bytes, bad start
bytes (including the invalid C0 C1 and above F4), missing or malformed
continuation bytes, and any codepoint failing utf8CharOk are rejected. -/
def mosquitto_validate_utf8 : List Nat → Bool
  | [] => true
  | b :: rest =>
    if b = 0 then false
    else if b ≤ 0x7F then
      utf8CharOk 1 b && mosquitto_validate_utf8 rest
    else if 0xC0 ≤ b ∧ b ≤ 0xDF then
      if b = 0xC0 ∨ b = 0xC1 then false
      else
        match rest with
        | c1 :: rest2 =>
          if utf8IsCont c1 then
            utf8CharOk 2 ((b % 32) * 64 + c1 % 64) && mosquitto_validate_utf8 rest2
          else false
        | [] => false
    else if 0xE0 ≤ b ∧ b ≤ 0xEF then
      match rest with
      | c1 :: c2 :: rest2 =>
        if utf8IsCont c1 ∧ utf8IsCont c2 then
          utf8CharOk 3 (((b % 16) * 64 + c1 % 64) * 64 + c2 % 64) &&
            mosquitto_validate_utf8 rest2
        else false
      | _ => false
    else if 0xF0 ≤ b ∧ b ≤ 0xF7 then
      if 0xF4 < b then false
      else
        match rest with
        | c1 :: c2 :: c3 :: rest2 =>
          if utf8IsCont c1 ∧ utf8IsCont c2 ∧ utf8IsCont c3 then
            utf8CharOk 4 ((((b % 8) * 64 + c1 % 64) * 64 + c2 % 64) * 64 + c3 % 64) &&
              mosquitto_validate_utf8 rest2
          else false
        | _ => false
    else false

/-! ### Native property lists -/

/-- Payload of one native property, typed per its wire type.  Byte
strings are lists of byte values. -/
inductive PropValue
  | byteV (n : Nat)
  | int16V (n : Nat)
  | int32V (n : Nat)
  | varintV (n : Nat)
  | strV (s : List Nat)
  | binV (s : List Nat)
  | pairV (k v : List Nat)
deriving DecidableEq, Repr

/-- One entry of a native mosquitto_property list. -/
structure MProperty where
  identifier : Nat
  value : PropValue
deriving DecidableEq, Repr

/-- The per-identifier value-validity checks of the external
mosquitto_property_check_all: the byte-flag properties
(payload-format-indicator, request-problem-information,
request-response-information, maximum-qos, retain-available and the
three availability flags) must be at most 1; maximum-packet-size,
receive-maximum and topic-alias must be nonzero.  The C code reads the
union member of the checked width; a property of another stored shape
(never produced by the binding for these identifiers) passes. -/
def propValueValid (p : MProperty) : Bool :=
  if p.identifier ∈ [1, 23, 25, 36, 37, 40, 41, 42] then
    match p.value with
    | .byteV n => n ≤ 1
    | _ => true
  else if p.identifier = 39 then
    match p.value with
    | .int32V n => n ≠ 0
    | _ => true
  else if p.identifier = 33 ∨ p.identifier = 35 then
    match p.value with
    | .int16V n => n ≠ 0
    | _ => true
  else true

/-- Check of one whole list, modelled from the external libmosquitto
function mosquitto_property_check_all: walking the list in order, each
property must pass the value-validity checks and be legal for the
command (both MOSQ_ERR_PROTOCOL), and no identifier other than
user-property (38) may recur later in the list
(MOSQ_ERR_DUPLICATE_PROPERTY).  Returns the first failure, else
MOSQ_ERR_SUCCESS. -/
def mosquitto_property_check_all (cmd : Nat) : List MProperty → Int
  | [] => MOSQ_ERR_SUCCESS
  | p :: rest =>
    if propValueValid p = false then MOSQ_ERR_PROTOCOL
    else if propAllowedForCommand p.identifier cmd = false then MOSQ_ERR_PROTOCOL
    else if p.identifier ≠ 38 ∧ rest.any (fun q => q.identifier == p.identifier) then
      MOSQ_ERR_DUPLICATE_PROPERTY
    else mosquitto_property_check_all cmd rest

/-! ### Encoder: dynamic Lua map to native property list
(create_property_list_from_lua_stack, src/lua-mosquitto.c lines 1750-1862) -/

/-- Dynamic shape of one Lua value handed to the encoder.  Numbers are the
C int obtained by the source from lua_tonumber; strings are byte lists;
a nested table is the user-property map; other covers every remaining
Lua type (boolean, nil, function, ...). -/
inductive LuaValue
  | num (n : Int)
  | lstr (s : List Nat)
  | table (pairs : List (List Nat × List Nat))
  | other
deriving DecidableEq, Repr

/-- The prefix of a byte string up to (excluding) the first NUL byte:
the portion a C string function such as strlen or strdup sees. -/
def cstr (s : List Nat) : List Nat := s.takeWhile (fun b => b != 0)

/-- Outcome of the encoding while-loop over the Lua table.  done carries
the final rc and the list built so far and flows into the common epilogue
(free on failure, then the per-command check); early models the two
`return MOSQ_ERR_INVAL` statements inside the value switch, which leave
the function immediately. -/
inductive LoopOut
  | done (rc : Int) (props : List MProperty)
  | early (rc : Int) (props : List MProperty)
deriving DecidableEq, Repr

/-- The inner while loop over the nested user-property table: each pair
goes through mosquitto_property_add_string_pair, which (after the
identifier test handled by the caller branch) validates both C strings
as UTF-8 (MOSQ_ERR_MALFORMED_UTF8 on failure) and appends on success.
The C code does not test rc inside this loop, so an invalid pair is
silently dropped and only the last pair's rc survives to the outer
check. -/
def addStringPairLoop (pairs : List (List Nat × List Nat))
    (props : List MProperty) : List MProperty × Int :=
  pairs.foldl
    (fun acc kv =>
      if mosquitto_validate_utf8 (cstr kv.1) && mosquitto_validate_utf8 (cstr kv.2) then
        (acc.1 ++ [⟨38, .pairV (cstr kv.1) (cstr kv.2)⟩], MOSQ_ERR_SUCCESS)
      else (acc.1, MOSQ_ERR_MALFORMED_UTF8))
    (props, MOSQ_ERR_SUCCESS)

/-- The encoding loop.  The rc argument threads the C variable rc, whose
value on loop entry (uninitialised in the source) is observable when the
table is empty.  The native mosquitto_property_add_* calls are modelled
from libmosquitto: the fixed-width adds always succeed on the
range-checked casts, add_varint rejects values above 268435455,
add_string validates its value with mosquitto_validate_utf8 and rejects
with MOSQ_ERR_MALFORMED_UTF8, and add_string_pair rejects any
identifier other than user-property (38) before validating both strings
as UTF-8. -/
def encodeLoop : List (String × LuaValue) → Int → List MProperty → LoopOut
  | [], rc, props => .done rc props
  | (key, v) :: rest, _, props =>
    match mosquitto_string_to_property_info key with
    | none => .done MOSQ_ERR_INVAL props
    | some (id, ty) =>
      match v with
      | .num n =>
        match ty with
        | .BYTE =>
          if n < 0 ∨ n > 255 then .done MOSQ_ERR_INVAL props
          else encodeLoop rest MOSQ_ERR_SUCCESS (props ++ [⟨id, .byteV n.toNat⟩])
        | .INT16 =>
          if n < 0 ∨ n > 65535 then .done MOSQ_ERR_INVAL props
          else encodeLoop rest MOSQ_ERR_SUCCESS (props ++ [⟨id, .int16V n.toNat⟩])
        | .INT32 =>
          if n < 0 ∨ n > 4294967295 then .done MOSQ_ERR_INVAL props
          else encodeLoop rest MOSQ_ERR_SUCCESS (props ++ [⟨id, .int32V n.toNat⟩])
        | .VARINT =>
          if n < 0 ∨ n > 4294967295 then .done MOSQ_ERR_INVAL props
          else if n.toNat ≤ 268435455 then
            encodeLoop rest MOSQ_ERR_SUCCESS (props ++ [⟨id, .varintV n.toNat⟩])
          else .done MOSQ_ERR_INVAL props
        | _ => .early MOSQ_ERR_INVAL props
      | .lstr s =>
        match ty with
        | .BINARY =>
          if (cstr s).length > 65535 then .done MOSQ_ERR_INVAL props
          else encodeLoop rest MOSQ_ERR_SUCCESS (props ++ [⟨id, .binV (cstr s)⟩])
        | .STRING =>
          if mosquitto_validate_utf8 (cstr s) then
            encodeLoop rest MOSQ_ERR_SUCCESS (props ++ [⟨id, .strV (cstr s)⟩])
          else .done MOSQ_ERR_MALFORMED_UTF8 props
        | _ => .early MOSQ_ERR_INVAL props
      | .table pairs =>
        if id = 38 then
          let stepped := addStringPairLoop pairs props
          if stepped.2 = MOSQ_ERR_SUCCESS then
            encodeLoop rest MOSQ_ERR_SUCCESS stepped.1
          else .done stepped.2 stepped.1
        else if pairs.isEmpty then
          encodeLoop rest MOSQ_ERR_SUCCESS props
        else .done MOSQ_ERR_INVAL props
      | .other => .done MOSQ_ERR_INVAL props

/-- Result of the whole encoder.  errFreed is a failure that passed
through the epilogue calling mosquitto_property_free_all; errLeaked is a
failure through an early return that skips the free, carrying the
partially built list that is never released. -/
inductive EncodeResult
  | ok (props : List MProperty)
  | errFreed (rc : Int)
  | errLeaked (rc : Int) (leaked : List MProperty)
deriving DecidableEq, Repr

/-- Shallow embedding of create_property_list_from_lua_stack.  rc0 is
the indeterminate initial value of the uninitialised C variable rc,
which is read by the epilogue when the entries list is empty. -/
def create_property_list_from_lua_stack (rc0 : Int)
    (entries : List (String × LuaValue)) (command : Nat) : EncodeResult :=
  match encodeLoop entries rc0 [] with
  | .early rc props => .errLeaked rc props
  | .done rc props =>
    if rc ≠ MOSQ_ERR_SUCCESS then .errFreed rc
    else if mosquitto_property_check_all command props ≠ MOSQ_ERR_SUCCESS then
      .errFreed MOSQ_ERR_INVAL
    else .ok props

/-- The shared caller pattern of will_set_v5, connect_bind_v5,
disconnect_v5, publish_v5, subscribe_v5 and unsubscribe_v5: the encoded
list is handed to the native command call only when the encoder returned
MOSQ_ERR_SUCCESS; on any failure the caller returns through
mosq__pstatus without touching the native command. -/
def v5_native_handoff (rc0 : Int) (entries : List (String × LuaValue))
    (cmd : Nat) : Option (List MProperty) :=
  match create_property_list_from_lua_stack rc0 entries cmd with
  | .ok props => some props
  | _ => none

/-! ### Decoder: native property list to Lua table
(create_lua_stack_from_property_list, src/lua-mosquitto.c lines 1635-1744) -/

/-- The wire type the decoder switch assigns to an identifier: its case
lists, transcribed group by group.  none is an identifier the switch
ignores. -/
def decodeType (id : Nat) : Option PropType :=
  if id ∈ [1, 23, 25, 36, 37, 40, 41, 42] then some .BYTE
  else if id ∈ [19, 33, 34, 35] then some .INT16
  else if id ∈ [2, 17, 24, 39] then some .INT32
  else if id = 11 then some .VARINT
  else if id ∈ [3, 8, 18, 21, 26, 28, 31] then some .STRING
  else if id ∈ [22, 9] then some .BINARY
  else if id = 38 then some .STRING_PAIR
  else none

/-- A value stored in the decoded Lua table.  Integer pushes become num,
lua_pushstring and lua_pushlstring both become str, and the nested
user-property table becomes tbl. -/
inductive TValue
  | num (n : Nat)
  | str (s : List Nat)
  | tbl (m : List (List Nat × List Nat))
deriving DecidableEq, Repr

/-- Lua table assignment t[k] = v: replace the binding in place if the
key is present, else append it.  Used for both the outer decoded table
(String keys) and the nested user-property table (byte-string keys). -/
def luaSet {α β : Type} [DecidableEq α] : List (α × β) → α → β → List (α × β)
  | [], k, v => [(k, v)]
  | (k0, v0) :: t, k, v =>
    if k0 = k then (k, v) :: t else (k0, v0) :: luaSet t k v

/-- Lua table read t[k]. -/
def luaLookup {α β : Type} [DecidableEq α] : List (α × β) → α → Option β
  | [], _ => none
  | (k0, v0) :: t, k => if k0 = k then some v0 else luaLookup t k

/-- A native property whose stored payload matches the shape the decoder
reads for its identifier.  The native layer guarantees this for every
list it delivers; ill-shaped fixed-width payloads would make the C code
reuse a stale scratch variable, which the embedding replaces by 0 and
every theorem excludes via this predicate. -/
def wellTyped (p : MProperty) : Bool :=
  match decodeType p.identifier, p.value with
  | some .BYTE, .byteV _ => true
  | some .INT16, .int16V _ => true
  | some .INT32, .int32V _ => true
  | some .VARINT, .varintV _ => true
  | some .STRING, .strV _ => true
  | some .BINARY, .binV _ => true
  | some .STRING_PAIR, .pairV _ _ => true
  | none, _ => true
  | _, _ => false

/-- The decoding loop: outer table, the user_prop_table_created flag and
the in-progress nested table.  String-class reads that find no value
return MOSQ_ERR_NOMEM, as the C code does on a NULL result. -/
def decodeLoop : List MProperty → List (String × TValue) → Bool →
    List (List Nat × List Nat) →
    Except Int (List (String × TValue) × Bool × List (List Nat × List Nat))
  | [], outer, created, inner => .ok (outer, created, inner)
  | p :: rest, outer, created, inner =>
    match decodeType p.identifier with
    | some .BYTE =>
      let n := match p.value with | .byteV n => n | _ => 0
      decodeLoop rest
        (luaSet outer (mosquitto_property_identifier_to_string p.identifier) (.num n))
        created inner
    | some .INT16 =>
      let n := match p.value with | .int16V n => n | _ => 0
      decodeLoop rest
        (luaSet outer (mosquitto_property_identifier_to_string p.identifier) (.num n))
        created inner
    | some .INT32 =>
      let n := match p.value with | .int32V n => n | _ => 0
      decodeLoop rest
        (luaSet outer (mosquitto_property_identifier_to_string p.identifier) (.num n))
        created inner
    | some .VARINT =>
      let n := match p.value with | .varintV n => n | _ => 0
      decodeLoop rest
        (luaSet outer (mosquitto_property_identifier_to_string p.identifier) (.num n))
        created inner
    | some .STRING =>
      match p.value with
      | .strV s =>
        decodeLoop rest
          (luaSet outer (mosquitto_property_identifier_to_string p.identifier) (.str s))
          created inner
      | _ => .error MOSQ_ERR_NOMEM
    | some .BINARY =>
      match p.value with
      | .binV s =>
        decodeLoop rest
          (luaSet outer (mosquitto_property_identifier_to_string p.identifier) (.str s))
          created inner
      | _ => .error MOSQ_ERR_NOMEM
    | some .STRING_PAIR =>
      match p.value with
      | .pairV k v => decodeLoop rest outer true (luaSet inner k v)
      | _ => .error MOSQ_ERR_NOMEM
    | none => decodeLoop rest outer created inner

/-- Shallow embedding of create_lua_stack_from_property_list: run the
scan, then attach the nested user-property table (if one was created)
to the outer table exactly once. -/
def create_lua_stack_from_property_list (props : List MProperty) :
    Except Int (List (String × TValue)) :=
  match decodeLoop props [] false [] with
  | .error rc => .error rc
  | .ok (outer, created, inner) =>
    .ok (if created then
           luaSet outer (mosquitto_property_identifier_to_string 38) (.tbl inner)
         else outer)

/-- The user-property pairs of a native list, in wire order. -/
def userPairsOf (props : List MProperty) : List (List Nat × List Nat) :=
  props.filterMap (fun p =>
    match p.value with
    | .pairV k v => if p.identifier = 38 then some (k, v) else none
    | _ => none)

/-- The C int range: values representable by the variable
`int value = lua_tonumber(...)` of the encoder. -/
def INT_MAX : Int := 2147483647

/-- A dynamic value both valid for the wire type and faithfully
representable by the binding: integers within the wire width and the C
int range, byte strings within the 16-bit length field and free of NUL
bytes (C string handling truncates at the first NUL), UTF-8 strings
passing the native validator, and a nonempty nested map with distinct
NUL-free UTF-8 keys and values for the string-pair type. -/
def validValue : PropType → LuaValue → Prop
  | .BYTE, .num n => 0 ≤ n ∧ n ≤ 255
  | .INT16, .num n => 0 ≤ n ∧ n ≤ 65535
  | .INT32, .num n => 0 ≤ n ∧ n ≤ INT_MAX
  | .VARINT, .num n => 0 ≤ n ∧ n ≤ 268435455
  | .STRING, .lstr s =>
      s.length ≤ 65535 ∧ 0 ∉ s ∧ mosquitto_validate_utf8 s = true
  | .BINARY, .lstr s => s.length ≤ 65535 ∧ 0 ∉ s
  | .STRING_PAIR, .table m =>
      m ≠ [] ∧ (m.map (·.1)).Nodup ∧
      ∀ kv ∈ m, (0 ∉ kv.1 ∧ 0 ∉ kv.2) ∧
        mosquitto_validate_utf8 kv.1 = true ∧ mosquitto_validate_utf8 kv.2 = true
  | _, _ => False

/-- The value restrictions mosquitto_property_check_all imposes on
specific identifiers, phrased on the dynamic value handed to the
encoder: byte-flag properties at most 1; maximum-packet-size,
receive-maximum and topic-alias nonzero. -/
def nativeValueOk (id2 : Nat) (v : LuaValue) : Prop :=
  match v with
  | .num n =>
      (id2 ∈ [1, 23, 25, 36, 37, 40, 41, 42] → n ≤ 1) ∧
      (id2 = 39 → n ≠ 0) ∧
      (id2 = 33 ∨ id2 = 35 → n ≠ 0)
  | _ => True

/-- Conversion between the encoder-side and decoder-side value shapes,
used to state the round trip. -/
def toT : LuaValue → TValue
  | .num n => .num n.toNat
  | .lstr s => .str s
  | .table m => .tbl m
  | .other => .num 0

/-! ### Callback registry and dispatcher
(ctx__on_init lines 215-230, ctx__on_clear lines 232-247,
ctx_callback_set lines 1424-1515 and the trampolines of
src/lua-mosquitto.c) -/

/-- The thirteen event kinds of enum callback_types. -/
inductive EventKind
  | onConnect | onConnectV5 | onDisconnect | onDisconnectV5
  | onPublish | onPublishV5 | onMessage | onMessageV5
  | onSubscribe | onSubscribeV5 | onUnsubscribe | onUnsubscribeV5
  | onLog
deriving DecidableEq, Repr

/-- The Lua registry as seen through luaL_ref and luaL_unref: a supply of
fresh reference ids and the set of ids currently holding a value. -/
structure LuaRegistry where
  nextRef : Nat
  live : List Nat
deriving Repr

/-- luaL_ref: store the value under a fresh id and return the id. -/
def luaL_ref (r : LuaRegistry) : Nat × LuaRegistry :=
  (r.nextRef, ⟨r.nextRef + 1, r.nextRef :: r.live⟩)

/-- luaL_unref: release the id. -/
def luaL_unref (r : LuaRegistry) (ref : Nat) : LuaRegistry :=
  ⟨r.nextRef, r.live.erase ref⟩

/-- One client context as the dispatch bridge sees it: the per-event
handler slots of ctx_t (none models LUA_REFNIL), and for each event kind
whether the native mosquitto_*_callback_set trampoline has been
installed on the handle. -/
structure CtxState where
  reg : LuaRegistry
  slot : EventKind → Option Nat
  installed : EventKind → Bool

/-- A fresh context: mosq_new runs ctx__on_init, every slot LUA_REFNIL,
and the native handle starts with no trampolines installed. -/
def ctxInit : CtxState :=
  { reg := ⟨1, []⟩, slot := fun _ => none, installed := fun _ => false }

/-- ctx_callback_set for a valid event kind: take a fresh registry ref
for the handler, store it in the slot for that kind (overwriting any
previous ref without luaL_unref), and install the native trampoline for
that kind. -/
def ctx_callback_set (s : CtxState) (k : EventKind) : CtxState :=
  let r := luaL_ref s.reg
  { reg := r.2,
    slot := fun k2 => if k2 = k then some r.1 else s.slot k2,
    installed := fun k2 => k2 == k || s.installed k2 }

/-- ctx_reinitialise: mosquitto_reinitialise resets the native handle to
its freshly created state (no trampolines, per the documented behaviour
of the external library), then ctx__on_clear releases every slot ref and
ctx__on_init resets every slot to LUA_REFNIL. -/
def ctx_reinitialise (s : CtxState) : CtxState :=
  { reg := ⟨s.reg.nextRef,
      ([EventKind.onConnect, .onConnectV5, .onDisconnect, .onDisconnectV5,
        .onPublish, .onPublishV5, .onMessage, .onMessageV5,
        .onSubscribe, .onSubscribeV5, .onUnsubscribe, .onUnsubscribeV5,
        .onLog].filterMap s.slot).foldl List.erase s.reg.live⟩,
    slot := fun _ => none,
    installed := fun _ => false }

/-- The host-visible effect of the native library delivering one event. -/
inductive DispatchResult
  /-- no trampoline installed for the kind: the native library invokes
  nothing, the event vanishes. -/
  | dropped
  /-- the trampoline ran lua_rawgeti on the slot and lua_call invoked the
  referenced handler. -/
  | invoked (ref : Nat)
  /-- the trampoline ran with an empty slot: lua_rawgeti pushes nil and
  lua_call raises a Lua error. -/
  | luaError
deriving DecidableEq, Repr

/-- Dispatch of one native event of kind k against a context. -/
def dispatch (s : CtxState) (k : EventKind) : DispatchResult :=
  if s.installed k then
    match s.slot k with
    | some r => .invoked r
    | none => .luaError
  else
    .dropped

/-- The states a client context can actually be in: fresh, or reached by
registrations and reinitialisations. -/
inductive ReachableCtx : CtxState → Prop
  | init : ReachableCtx ctxInit
  | callback_set {s : CtxState} (k : EventKind) :
      ReachableCtx s → ReachableCtx (ctx_callback_set s k)
  | reinit {s : CtxState} :
      ReachableCtx s → ReachableCtx (ctx_reinitialise s)

/-- The native result code an encoder outcome carries, none on success. -/
def EncodeResult.rcOf : EncodeResult → Option Int
  | .ok _ => none
  | .errFreed rc => some rc
  | .errLeaked rc _ => some rc

/-- Largest value the encoder (together with the modelled native add
call, for VARINT) accepts for each numeric wire type; -1 for the
non-numeric wire types, for which no numeric value is permitted. -/
def numMax : PropType → Int
  | .BYTE => 255
  | .INT16 => 65535
  | .INT32 => 4294967295
  | .VARINT => 268435455
  | _ => -1

/-! ## Theorems -/

/-- C1 (amended): the status translator maps MOSQ_ERR_SUCCESS to the
success shape, the recoverable codes (no-connection, connection-lost,
payload-too-large and the OS-errno code) to the structured
nil-plus-code-plus-message shape, and the four programmer-error codes
(invalid argument, out of memory, protocol violation, unsupported) to a
raised hard failure; but a non-success code outside this handled set
does not raise: it falls through the switch and produces zero return
values, a fourth shape the claim does not admit. -/
theorem C1_status_translator_shapes (strerror cstrerror : Int → String)
    (errno e : Int) :
    (e = MOSQ_ERR_SUCCESS →
       mosq__pstatus strerror cstrerror errno e = .success) ∧
    (e = MOSQ_ERR_NO_CONN ∨ e = MOSQ_ERR_CONN_LOST ∨ e = MOSQ_ERR_PAYLOAD_SIZE →
       mosq__pstatus strerror cstrerror errno e = .structured e (strerror e)) ∧
    (e = MOSQ_ERR_ERRNO →
       mosq__pstatus strerror cstrerror errno e = .structured errno (cstrerror errno)) ∧
    (e = MOSQ_ERR_INVAL ∨ e = MOSQ_ERR_NOMEM ∨ e = MOSQ_ERR_PROTOCOL ∨
       e = MOSQ_ERR_NOT_SUPPORTED →
       mosq__pstatus strerror cstrerror errno e = .raised (strerror e)) ∧
    (e ∉ ([0, 1, 2, 3, 4, 7, 9, 10, 14] : List Int) →
       mosq__pstatus strerror cstrerror errno e = .nothing) := by
  refine ⟨?_, ?_, ?_, ?_, ?_⟩
  · rintro rfl; rfl
  · rintro (rfl | rfl | rfl) <;> rfl
  · rintro rfl; rfl
  · rintro (rfl | rfl | rfl | rfl) <;> rfl
  · intro h
    simp only [List.mem_cons, List.not_mem_nil, or_false, not_or] at h
    obtain ⟨h0, h1, h2, h3, h4, h7, h9, h10, h14⟩ := h
    simp [mosq__pstatus, MOSQ_ERR_SUCCESS, MOSQ_ERR_INVAL, MOSQ_ERR_NOMEM,
          MOSQ_ERR_PROTOCOL, MOSQ_ERR_NOT_SUPPORTED, MOSQ_ERR_NO_CONN,
          MOSQ_ERR_CONN_LOST, MOSQ_ERR_PAYLOAD_SIZE, MOSQ_ERR_ERRNO,
          h0, h1, h2, h3, h4, h7, h9, h10, h14]

/-- C1 witness: the recoverable code MOSQ_ERR_NO_CONN yields the
structured shape. -/
theorem C1_status_translator_shapes_witness :
    mosq__pstatus (fun _ => "E") (fun _ => "OS") 6 4 = PStatus.structured 4 "E" :=
  ((C1_status_translator_shapes (fun _ => "E") (fun _ => "OS") 6 4).2.1) (Or.inl rfl)

/-- C1 counterexample: MOSQ_ERR_CONN_REFUSED (5) is a non-success code
outside the handled set; the translator neither succeeds, nor returns
the structured shape, nor raises — it returns zero values, refuting the
claim that every other non-success code is raised as a hard failure. -/
theorem C1_unhandled_code_falls_through :
    mosq__pstatus (fun _ => "E") (fun _ => "OS") 0 MOSQ_ERR_CONN_REFUSED
        = PStatus.nothing ∧
    (mosq__pstatus (fun _ => "E") (fun _ => "OS") 0 MOSQ_ERR_CONN_REFUSED).isRaised
        = false ∧
    (mosq__pstatus (fun _ => "E") (fun _ => "OS") 0 MOSQ_ERR_CONN_REFUSED).isStructured
        = false :=
  ⟨rfl, rfl, rfl⟩

/-- C2 (code bug): a numeric value for a string-typed property takes the
default branch of the value switch, which returns MOSQ_ERR_INVAL
directly, bypassing the mosquitto_property_free_all epilogue — the
property already built from the preceding map entry is leaked, contrary
to the claim (and to the source comment at line 1848) that every
failure releases all partially-built properties.  No partial list is
handed to a native command call, but the release half of the claim
fails. -/
theorem C2_encode_failure_leaks_partial_list :
    create_property_list_from_lua_stack 0
        [("payload-format-indicator", .num 1), ("content-type", .num 5)]
        CMD_PUBLISH
      = .errLeaked MOSQ_ERR_INVAL [⟨1, .byteV 1⟩] ∧
    v5_native_handoff 0
        [("payload-format-indicator", .num 1), ("content-type", .num 5)]
        CMD_PUBLISH
      = none :=
  ⟨rfl, rfl⟩

/-- C9 (code bug): on an empty property table the encoding loop never
runs, so the C variable rc is still uninitialised when the epilogue
tests it; the outcome depends on that indeterminate value (modelled as
the rc0 parameter): garbage MOSQ_ERR_NOMEM produces a spurious failure,
and only garbage that happens to equal MOSQ_ERR_SUCCESS produces the
claimed empty-list success. -/
theorem C9_empty_map_reads_uninitialised_rc :
    create_property_list_from_lua_stack MOSQ_ERR_NOMEM [] CMD_PUBLISH
        = .errFreed MOSQ_ERR_NOMEM ∧
    create_property_list_from_lua_stack MOSQ_ERR_SUCCESS [] CMD_PUBLISH
        = .ok [] :=
  ⟨rfl, rfl⟩

/-- C3 counterexample: registering twice for the same event kind leaves
the slot on the second reference, but the first reference is still live
in the Lua registry — it was never released, refuting the
Registered to Registered (old ref released) transition. -/
theorem C3_second_registration_keeps_old_ref :
    ((ctx_callback_set (ctx_callback_set ctxInit .onConnect) .onConnect).slot
        EventKind.onConnect = some 2) ∧
    1 ∈ (ctx_callback_set (ctx_callback_set ctxInit .onConnect) .onConnect).reg.live := by
  exact ⟨rfl, by decide⟩

/-- C3 (amended): re-registration for an occupied (context, eventKind)
slot stores the fresh reference, so exactly the new handler is active in
the slot and it differs from the old one; but the previously stored
reference is not released — it stays live in the Lua registry
(a reference leak), contrary to the claimed release. -/
theorem C3_register_overwrites_without_release (s : CtxState) (k : EventKind)
    (old : Nat) (_hold : s.slot k = some old) (hlive : old ∈ s.reg.live)
    (hlt : old < s.reg.nextRef) :
    (ctx_callback_set s k).slot k = some s.reg.nextRef ∧
    s.reg.nextRef ≠ old ∧
    old ∈ (ctx_callback_set s k).reg.live := by
  refine ⟨?_, ?_, ?_⟩
  · simp [ctx_callback_set, luaL_ref]
  · omega
  · simp only [ctx_callback_set, luaL_ref]
    exact List.mem_cons_of_mem _ hlive

/-- C3 witness: the amended statement at the concrete two-registration
run used in the counterexample. -/
theorem C3_register_overwrites_without_release_witness :
    (ctx_callback_set (ctx_callback_set ctxInit .onConnect) .onConnect).slot
        EventKind.onConnect
      = some (ctx_callback_set ctxInit .onConnect).reg.nextRef ∧
    (ctx_callback_set ctxInit .onConnect).reg.nextRef ≠ 1 ∧
    1 ∈ (ctx_callback_set (ctx_callback_set ctxInit .onConnect) .onConnect).reg.live :=
  C3_register_overwrites_without_release
    (ctx_callback_set ctxInit .onConnect) .onConnect 1 rfl (by decide) (by decide)

/-- In every reachable context state, an empty handler slot implies the
native trampoline for that event kind was never installed: registration
is the only transition that installs a trampoline, and it also fills the
slot. -/
theorem reachable_uninstalled_of_no_slot {s : CtxState} (h : ReachableCtx s) :
    ∀ k, s.slot k = none → s.installed k = false := by
  induction h with
  | init => intro k _; rfl
  | callback_set k2 _ ih =>
    intro k hk
    simp only [ctx_callback_set] at hk ⊢
    by_cases hkk : k = k2
    · simp [hkk] at hk
    · have hb : (k == k2) = false := by simp [hkk]
      rw [if_neg hkk] at hk
      rw [hb, Bool.false_or]
      exact ih k hk
  | reinit _ _ => intro k _; rfl

/-- C4: in every reachable context state, dispatching a native event
whose handler slot is still in its initial empty state is silently
dropped — the native library has no trampoline installed for that kind,
so no handler runs and no error is raised. -/
theorem C4_unregistered_event_silently_dropped {s : CtxState}
    (h : ReachableCtx s) (k : EventKind) (hnone : s.slot k = none) :
    dispatch s k = .dropped := by
  unfold dispatch
  rw [reachable_uninstalled_of_no_slot h k hnone]
  simp

/-- C4 witness: a message event against a fresh context is dropped. -/
theorem C4_unregistered_event_silently_dropped_witness :
    dispatch ctxInit EventKind.onMessage = DispatchResult.dropped :=
  C4_unregistered_event_silently_dropped ReachableCtx.init EventKind.onMessage rfl

/-- Facts the two registry directions agree on, obtained by scanning the
27 entries: the decoder keys the outer table with the same name the
encoder resolved, the decoder switch assigns the same wire type, and
the string-pair type belongs exactly to identifier 38. -/
theorem registry_facts (name : String) (id : Nat) (ty : PropType)
    (hreg : mosquitto_string_to_property_info name = some (id, ty)) :
    mosquitto_property_identifier_to_string id = name ∧
    decodeType id = some ty ∧
    (ty = .STRING_PAIR ↔ id = 38) := by
  unfold mosquitto_string_to_property_info at hreg
  rw [Option.map_eq_some'] at hreg
  obtain ⟨e, hfind, he2⟩ := hreg
  have hmem := List.mem_of_find?_eq_some hfind
  have hp := List.find?_some hfind
  rw [beq_iff_eq] at hp
  simp only [registryEntries, List.mem_cons, List.not_mem_nil, or_false] at hmem
  rcases hmem with rfl | rfl | rfl | rfl | rfl | rfl | rfl | rfl | rfl | rfl | rfl |
    rfl | rfl | rfl | rfl | rfl | rfl | rfl | rfl | rfl | rfl | rfl | rfl | rfl |
    rfl | rfl | rfl <;>
  · simp only [Prod.mk.injEq] at he2
    obtain ⟨h1, h2⟩ := he2
    subst h1; subst h2; subst hp
    refine ⟨by decide, by decide, by decide⟩

/-- A byte string without a NUL byte passes through the C string view
unchanged. -/
theorem cstr_of_not_mem {s : List Nat} (h : 0 ∉ s) : cstr s = s := by
  induction s with
  | nil => rfl
  | cons a t ih =>
    have ha : a ≠ 0 := fun hz => h (hz ▸ List.mem_cons_self a t)
    have ht : 0 ∉ t := fun hz => h (List.mem_cons_of_mem a hz)
    have hb : (a != 0) = true := by simpa using ha
    simp only [cstr, List.takeWhile, hb]
    exact congrArg (a :: ·) (ih ht)

/-- C5: a numeric property value is range-checked against the numeric
wire types: negatives are always rejected (for non-numeric wire types a
numeric value is rejected outright), values above 255 for Byte, above
65535 for Int16, above the 32-bit width for Int32, and above the
varint maximum 268435455 for VarInt are rejected; the encoder fails
with MOSQ_ERR_INVAL and the callers hand no list to the native command
call.  Values are those representable in the C int variable the source
converts into. -/
theorem C5_numeric_range_check (name : String) (id : Nat) (ty : PropType)
    (n : Int) (cmd : Nat) (rc0 : Int)
    (hreg : mosquitto_string_to_property_info name = some (id, ty))
    (hint : -2147483648 ≤ n ∧ n ≤ INT_MAX)
    (hbad : n < 0 ∨ numMax ty < n) :
    (create_property_list_from_lua_stack rc0 [(name, .num n)] cmd).rcOf
        = some MOSQ_ERR_INVAL ∧
    v5_native_handoff rc0 [(name, .num n)] cmd = none := by
  simp only [INT_MAX] at hint
  obtain ⟨hlo, hhi⟩ := hint
  have hloop : encodeLoop [(name, .num n)] rc0 [] = .done MOSQ_ERR_INVAL []
      ∨ encodeLoop [(name, .num n)] rc0 [] = .early MOSQ_ERR_INVAL [] := by
    cases ty with
    | BYTE =>
      left
      simp only [encodeLoop, hreg]
      rw [if_pos]
      simp only [numMax] at hbad
      exact hbad
    | INT16 =>
      left
      simp only [encodeLoop, hreg]
      rw [if_pos]
      simp only [numMax] at hbad
      exact hbad
    | INT32 =>
      left
      simp only [encodeLoop, hreg]
      rw [if_pos]
      simp only [numMax] at hbad
      exact hbad
    | VARINT =>
      left
      simp only [encodeLoop, hreg]
      simp only [numMax] at hbad
      rcases hbad with hneg | hbig
      · rw [if_pos (Or.inl hneg)]
      · rw [if_neg (by omega), if_neg (by omega)]
    | BINARY => right; simp [encodeLoop, hreg]
    | STRING => right; simp [encodeLoop, hreg]
    | STRING_PAIR => right; simp [encodeLoop, hreg]
  rcases hloop with h | h <;>
    simp [create_property_list_from_lua_stack, v5_native_handoff, h,
          EncodeResult.rcOf, MOSQ_ERR_INVAL, MOSQ_ERR_SUCCESS]

/-- C5 witness: the Byte-typed payload-format-indicator rejects 256. -/
theorem C5_numeric_range_check_witness :
    (create_property_list_from_lua_stack 0
        [("payload-format-indicator", .num 256)] CMD_PUBLISH).rcOf
      = some MOSQ_ERR_INVAL ∧
    v5_native_handoff 0 [("payload-format-indicator", .num 256)] CMD_PUBLISH
      = none :=
  C5_numeric_range_check "payload-format-indicator" 1 .BYTE 256 CMD_PUBLISH 0
    (by decide) (by decide) (by decide)

/-- A byte string containing a NUL splits as the NUL-free C string view
followed by the first NUL and the rest. -/
theorem cstr_decomp {s : List Nat} (h : 0 ∈ s) :
    ∃ suf, s = cstr s ++ 0 :: suf ∧ 0 ∉ cstr s := by
  induction s with
  | nil => cases h
  | cons a t ih =>
    by_cases ha : a = 0
    · subst ha
      exact ⟨t, by simp [cstr, List.takeWhile], by simp [cstr, List.takeWhile]⟩
    · have hb : (a != 0) = true := by simpa using ha
      have ht : 0 ∈ t := by
        rcases List.mem_cons.mp h with h0 | h0
        · exact absurd h0.symm ha
        · exact h0
      obtain ⟨suf, hs, hn⟩ := ih ht
      refine ⟨suf, ?_, ?_⟩
      · simp only [cstr, List.takeWhile, hb]
        exact congrArg (a :: ·) hs
      · simp only [cstr, List.takeWhile, hb]
        intro hmem
        rcases List.mem_cons.mp hmem with h0 | h0
        · exact ha h0.symm
        · exact hn h0

/-- The per-command check succeeds on a one-property list whose property
passes the value-validity checks and is legal for the command. -/
theorem check_all_singleton (cmd : Nat) (p : MProperty)
    (hv : propValueValid p = true)
    (h : propAllowedForCommand p.identifier cmd = true) :
    mosquitto_property_check_all cmd [p] = MOSQ_ERR_SUCCESS := by
  simp [mosquitto_property_check_all, hv, h]

/-- C10: the encoder measures a Binary value with strlen, so a blob with
an embedded NUL is truncated to the prefix before its first NUL: exactly
that prefix is stored in the property, and the 16-bit length check
applies to the truncated prefix (the hypothesis bounds only the
truncated length, not the full blob). -/
theorem C10_binary_truncated_at_first_nul (name : String) (id2 : Nat)
    (s : List Nat) (cmd : Nat) (rc0 : Int)
    (hreg : mosquitto_string_to_property_info name = some (id2, .BINARY))
    (hallow : propAllowedForCommand id2 cmd = true)
    (hnul : 0 ∈ s)
    (hlen : (cstr s).length ≤ 65535) :
    ∃ pre suf, s = pre ++ 0 :: suf ∧ 0 ∉ pre ∧
      create_property_list_from_lua_stack rc0 [(name, .lstr s)] cmd
        = .ok [⟨id2, .binV pre⟩] := by
  obtain ⟨suf, hs, hn⟩ := cstr_decomp hnul
  refine ⟨cstr s, suf, hs, hn, ?_⟩
  have hloop : encodeLoop [(name, .lstr s)] rc0 []
      = .done MOSQ_ERR_SUCCESS [⟨id2, .binV (cstr s)⟩] := by
    simp only [encodeLoop, hreg]
    rw [if_neg (by omega)]
    rfl
  have hpvv : propValueValid ⟨id2, .binV (cstr s)⟩ = true := by
    unfold propValueValid
    split_ifs <;> rfl
  simp [create_property_list_from_lua_stack, hloop,
        check_all_singleton cmd ⟨id2, .binV (cstr s)⟩ hpvv hallow]

/-- C10 witness: correlation-data with blob 97 0 98 stores only the
one-byte prefix 97. -/
theorem C10_binary_truncated_at_first_nul_witness :
    ∃ pre suf, ([97, 0, 98] : List Nat) = pre ++ 0 :: suf ∧ 0 ∉ pre ∧
      create_property_list_from_lua_stack 0 [("correlation-data", .lstr [97, 0, 98])]
          CMD_PUBLISH
        = .ok [⟨9, .binV pre⟩] :=
  C10_binary_truncated_at_first_nul "correlation-data" 9 [97, 0, 98] CMD_PUBLISH 0
    (by decide) (by decide) (by decide) (by decide)

/-- When every pair of the nested table is valid UTF-8, the inner pair
loop appends all pairs in order and ends with rc MOSQ_ERR_SUCCESS. -/
theorem addStringPairLoop_valid (pairs : List (List Nat × List Nat))
    (props : List MProperty)
    (h : ∀ kv ∈ pairs, mosquitto_validate_utf8 (cstr kv.1) = true ∧
          mosquitto_validate_utf8 (cstr kv.2) = true) :
    addStringPairLoop pairs props
      = (props ++ pairs.map (fun kv => ⟨38, .pairV (cstr kv.1) (cstr kv.2)⟩),
         MOSQ_ERR_SUCCESS) := by
  induction pairs generalizing props with
  | nil => simp [addStringPairLoop]
  | cons kv rest ih =>
    have hkv := h kv (List.mem_cons_self _ _)
    have ih2 := ih (props ++ [⟨38, .pairV (cstr kv.1) (cstr kv.2)⟩])
      (fun kv2 h2 => h kv2 (List.mem_cons_of_mem _ h2))
    unfold addStringPairLoop
    unfold addStringPairLoop at ih2
    simp only [List.foldl_cons]
    rw [if_pos (by simp [hkv.1, hkv.2])]
    rw [show ((props, MOSQ_ERR_SUCCESS).1 ++
          [(⟨38, .pairV (cstr kv.1) (cstr kv.2)⟩ : MProperty)], MOSQ_ERR_SUCCESS)
        = (props ++ [(⟨38, .pairV (cstr kv.1) (cstr kv.2)⟩ : MProperty)],
           MOSQ_ERR_SUCCESS) from rfl]
    rw [ih2]
    simp

/-- One valid map entry advances the encoding loop, appending at least
one property, all carrying the identifier the registry resolved for the
entry's name. -/
theorem encodeStep_valid (key : String) (v : LuaValue)
    (rest : List (String × LuaValue)) (rc : Int) (props : List MProperty)
    (id2 : Nat) (ty : PropType)
    (hreg : mosquitto_string_to_property_info key = some (id2, ty))
    (hv : validValue ty v) :
    ∃ d, encodeLoop ((key, v) :: rest) rc props
        = encodeLoop rest MOSQ_ERR_SUCCESS (props ++ d) ∧
      d ≠ [] ∧ ∀ p ∈ d, p.identifier = id2 := by
  cases ty <;> cases v <;> simp only [validValue] at hv
  case BYTE.num n =>
    refine ⟨[⟨id2, .byteV n.toNat⟩], ?_, by simp, by simp⟩
    simp only [encodeLoop, hreg]
    rw [if_neg (by omega)]
  case INT16.num n =>
    refine ⟨[⟨id2, .int16V n.toNat⟩], ?_, by simp, by simp⟩
    simp only [encodeLoop, hreg]
    rw [if_neg (by omega)]
  case INT32.num n =>
    simp only [INT_MAX] at hv
    refine ⟨[⟨id2, .int32V n.toNat⟩], ?_, by simp, by simp⟩
    simp only [encodeLoop, hreg]
    rw [if_neg (by omega)]
  case VARINT.num n =>
    refine ⟨[⟨id2, .varintV n.toNat⟩], ?_, by simp, by simp⟩
    simp only [encodeLoop, hreg]
    rw [if_neg (by omega), if_pos (by omega)]
  case STRING.lstr s =>
    refine ⟨[⟨id2, .strV (cstr s)⟩], ?_, by simp, by simp⟩
    simp only [encodeLoop, hreg]
    rw [cstr_of_not_mem hv.2.1, if_pos hv.2.2]
  case BINARY.lstr s =>
    refine ⟨[⟨id2, .binV (cstr s)⟩], ?_, by simp, by simp⟩
    simp only [encodeLoop, hreg]
    rw [if_neg (by rw [cstr_of_not_mem hv.2]; omega)]
  case STRING_PAIR.table m =>
    have h38 : id2 = 38 := (registry_facts key id2 .STRING_PAIR hreg).2.2.mp rfl
    subst h38
    have hpairs : ∀ kv ∈ m, mosquitto_validate_utf8 (cstr kv.1) = true ∧
        mosquitto_validate_utf8 (cstr kv.2) = true := by
      intro kv hkv
      obtain ⟨⟨hn1, hn2⟩, hu1, hu2⟩ := hv.2.2 kv hkv
      rw [cstr_of_not_mem hn1, cstr_of_not_mem hn2]
      exact ⟨hu1, hu2⟩
    refine ⟨m.map (fun kv => ⟨38, .pairV (cstr kv.1) (cstr kv.2)⟩), ?_, ?_, ?_⟩
    · simp only [encodeLoop, hreg]
      rw [addStringPairLoop_valid m props hpairs]
      simp
    · simpa using hv.1
    · intro p hp
      simp only [List.mem_map] at hp
      obtain ⟨kv, _, rfl⟩ := hp
      rfl

/-- A map whose entries all resolve in the registry and carry valid
values drives the loop to a successful end, every entry contributing
its identifier to the built list. -/
theorem encodeLoop_valid (entries : List (String × LuaValue))
    (hval : ∀ e ∈ entries, ∃ id2 ty,
        mosquitto_string_to_property_info e.1 = some (id2, ty) ∧ validValue ty e.2)
    (hne : entries ≠ []) (rc : Int) (props : List MProperty) :
    ∃ tail, encodeLoop entries rc props = .done MOSQ_ERR_SUCCESS (props ++ tail) ∧
      ∀ e ∈ entries, ∀ id2 ty,
        mosquitto_string_to_property_info e.1 = some (id2, ty) →
        id2 ∈ tail.map (·.identifier) := by
  induction entries generalizing rc props with
  | nil => exact absurd rfl hne
  | cons e rest ih =>
    obtain ⟨k, v⟩ := e
    obtain ⟨id2, ty, hreg, hv⟩ := hval (k, v) (List.mem_cons_self _ rest)
    obtain ⟨d, hstep, hdne, hdid⟩ := encodeStep_valid k v rest rc props id2 ty hreg hv
    have hid2d : id2 ∈ d.map (·.identifier) := by
      obtain ⟨p, hp⟩ := List.exists_mem_of_ne_nil d hdne
      exact List.mem_map.mpr ⟨p, hp, hdid p hp⟩
    by_cases hrest : rest = []
    · subst hrest
      refine ⟨d, by rw [hstep]; rfl, ?_⟩
      intro e2 he2 id3 ty3 hreg3
      rcases List.mem_cons.mp he2 with rfl | h0
      · have : (id2, ty) = (id3, ty3) := by
          have := hreg3 ▸ hreg
          exact Option.some.inj (hreg ▸ hreg3)
        obtain ⟨rfl, rfl⟩ := Prod.mk.injEq .. ▸ this
        exact hid2d
      · cases h0
    · have hval2 : ∀ e2 ∈ rest, ∃ id3 ty3,
          mosquitto_string_to_property_info e2.1 = some (id3, ty3) ∧
          validValue ty3 e2.2 :=
        fun e2 he2 => hval e2 (List.mem_cons_of_mem _ he2)
      obtain ⟨tail2, hloop2, hids2⟩ := ih hval2 hrest MOSQ_ERR_SUCCESS (props ++ d)
      refine ⟨d ++ tail2, ?_, ?_⟩
      · rw [hstep, hloop2, List.append_assoc]
      · intro e2 he2 id3 ty3 hreg3
        rw [List.map_append]
        rcases List.mem_cons.mp he2 with rfl | h0
        · have : (id2, ty) = (id3, ty3) := Option.some.inj (hreg ▸ hreg3)
          obtain ⟨rfl, rfl⟩ := Prod.mk.injEq .. ▸ this
          exact List.mem_append_left _ hid2d
        · exact List.mem_append_right _ (hids2 e2 h0 id3 ty3 hreg3)

/-- If the whole-list check succeeds, every property in the list was
legal for the command. -/
theorem check_all_ok_allowed (cmd : Nat) (props : List MProperty)
    (h : mosquitto_property_check_all cmd props = MOSQ_ERR_SUCCESS) :
    ∀ p ∈ props, propAllowedForCommand p.identifier cmd = true := by
  induction props with
  | nil =>
    intro p hp
    cases hp
  | cons q rest ih =>
    intro p hp
    unfold mosquitto_property_check_all at h
    split_ifs at h with h1 h2 h3
    · exact absurd h (by decide)
    · exact absurd h (by decide)
    · exact absurd h (by decide)
    · rcases List.mem_cons.mp hp with rfl | hp2
      · cases hq : propAllowedForCommand p.identifier cmd
        · exact absurd hq h2
        · rfl
      · exact ih h p hp2

/-- C8: per-command legality is checked last: when every map entry has
passed name resolution and value shape and range validation, and the
completed list contains a well-typed property that is illegal for the
target command, the encoder fails after the loop with MOSQ_ERR_INVAL
(the code carrying PropertyNotAllowedForCommand), and the caller hands
no list to the native command call. -/
theorem C8_command_legality_checked_last (entries : List (String × LuaValue))
    (cmd : Nat) (rc0 : Int)
    (hval : ∀ e ∈ entries, ∃ id2 ty,
        mosquitto_string_to_property_info e.1 = some (id2, ty) ∧ validValue ty e.2)
    (hbad : ∃ e ∈ entries, ∃ id2 ty,
        mosquitto_string_to_property_info e.1 = some (id2, ty) ∧
        propAllowedForCommand id2 cmd = false) :
    create_property_list_from_lua_stack rc0 entries cmd = .errFreed MOSQ_ERR_INVAL ∧
    v5_native_handoff rc0 entries cmd = none := by
  obtain ⟨e, he, id2, ty, hreg, hnot⟩ := hbad
  have hne : entries ≠ [] := by
    intro h
    rw [h] at he
    cases he
  obtain ⟨tail, hloop, hids⟩ := encodeLoop_valid entries hval hne rc0 []
  have hid2 : id2 ∈ tail.map (·.identifier) := hids e he id2 ty hreg
  have hcheck : mosquitto_property_check_all cmd tail ≠ MOSQ_ERR_SUCCESS := by
    intro h0
    obtain ⟨p, hp, hpid⟩ := List.mem_map.mp hid2
    have hpa := check_all_ok_allowed cmd tail h0 p hp
    rw [hpid, hnot] at hpa
    exact Bool.noConfusion hpa
  have hcreate : create_property_list_from_lua_stack rc0 entries cmd
      = .errFreed MOSQ_ERR_INVAL := by
    simp only [List.nil_append] at hloop
    simp [create_property_list_from_lua_stack, hloop, hcheck]
  exact ⟨hcreate, by simp [v5_native_handoff, hcreate]⟩

/-- C8 witness: session-expiry-interval is well-typed but illegal for a
publish command; encoding the one-entry map fails with MOSQ_ERR_INVAL. -/
theorem C8_command_legality_checked_last_witness :
    create_property_list_from_lua_stack 0
        [("session-expiry-interval", .num 60)] CMD_PUBLISH
      = .errFreed MOSQ_ERR_INVAL ∧
    v5_native_handoff 0 [("session-expiry-interval", .num 60)] CMD_PUBLISH = none :=
  C8_command_legality_checked_last _ _ _
    (by
      intro e he
      simp only [List.mem_singleton] at he
      subst he
      exact ⟨17, .INT32, by decide, by norm_num [validValue, INT_MAX]⟩)
    ⟨("session-expiry-interval", .num 60), by simp, 17, .INT32, by decide, by decide⟩

/-- Lua table read after assignment: the assigned key reads the new
value, any other key is unchanged. -/
theorem luaLookup_luaSet {α β : Type} [DecidableEq α]
    (m : List (α × β)) (k : α) (v : β) (k2 : α) :
    luaLookup (luaSet m k v) k2 = if k2 = k then some v else luaLookup m k2 := by
  induction m with
  | nil =>
    by_cases h : k2 = k
    · subst h; simp [luaSet, luaLookup]
    · rw [if_neg h]
      simp only [luaSet, luaLookup]
      rw [if_neg (fun hh => h hh.symm)]
  | cons a t ih =>
    obtain ⟨k0, v0⟩ := a
    simp only [luaSet]
    by_cases h0 : k0 = k
    · subst h0
      rw [if_pos rfl]
      by_cases h : k2 = k0
      · subst h
        simp [luaLookup]
      · simp only [luaLookup]
        rw [if_neg (fun hh => h hh.symm), if_neg h, if_neg (fun hh => h hh.symm)]
    · rw [if_neg h0]
      simp only [luaLookup]
      by_cases h2 : k0 = k2
      · subst h2
        have h3 : ¬k0 = k := h0
        rw [if_pos rfl, if_neg (fun hh => h0 hh), if_pos rfl]
      · rw [if_neg h2, if_neg h2, ih]

/-- Folding assignments whose keys all differ from k leaves the reading
of k unchanged. -/
theorem luaLookup_foldl_of_ne {α β : Type} [DecidableEq α]
    (ps : List (α × β)) (m : List (α × β)) (k : α)
    (h : ∀ kv ∈ ps, kv.1 ≠ k) :
    luaLookup (ps.foldl (fun a kv => luaSet a kv.1 kv.2) m) k = luaLookup m k := by
  induction ps generalizing m with
  | nil => rfl
  | cons kv rest ih =>
    simp only [List.foldl_cons]
    rw [ih _ (fun x hx => h x (List.mem_cons_of_mem _ hx)), luaLookup_luaSet,
        if_neg (fun hh => h kv (List.mem_cons_self _ _) hh.symm)]

/-- Folding a pair list into a table: a key occurring with a unique
value reads back that value, wherever it sits in the list. -/
theorem luaLookup_foldl_unique {α β : Type} [DecidableEq α] [DecidableEq β]
    (ps : List (α × β)) (m : List (α × β)) (k : α) (v : β)
    (hmem : (k, v) ∈ ps) (huniq : ∀ v2, (k, v2) ∈ ps → v2 = v) :
    luaLookup (ps.foldl (fun a kv => luaSet a kv.1 kv.2) m) k = some v := by
  induction ps generalizing m with
  | nil => cases hmem
  | cons kv rest ih =>
    simp only [List.foldl_cons]
    by_cases hrest : ∃ v2, (k, v2) ∈ rest
    · obtain ⟨v2, hv2⟩ := hrest
      have hv2v : v2 = v := huniq v2 (List.mem_cons_of_mem _ hv2)
      subst hv2v
      exact ih _ hv2 (fun v3 h3 => huniq v3 (List.mem_cons_of_mem _ h3))
    · have hkv : kv = (k, v) := by
        rcases List.mem_cons.mp hmem with h | h
        · exact h.symm
        · exact absurd ⟨v, h⟩ hrest
      subst hkv
      rw [luaLookup_foldl_of_ne rest _ k
            (fun x hx hh => hrest ⟨x.2, by rw [← hh]; exact hx⟩),
          luaLookup_luaSet, if_pos rfl]

/-- Assigning a key absent from the table appends the binding. -/
theorem luaSet_append {α β : Type} [DecidableEq α] (m : List (α × β)) (k : α) (v : β)
    (h : ∀ kv ∈ m, kv.1 ≠ k) : luaSet m k v = m ++ [(k, v)] := by
  induction m with
  | nil => rfl
  | cons a t ih =>
    simp only [luaSet]
    rw [if_neg (h a (List.mem_cons_self _ _)),
        ih (fun kv hkv => h kv (List.mem_cons_of_mem _ hkv))]
    rfl

/-- Folding a pair list with pairwise distinct keys, all absent from the
base table, appends the pairs in order. -/
theorem foldl_luaSet_nodup {α β : Type} [DecidableEq α]
    (ps : List (α × β)) (m : List (α × β))
    (hnd : (ps.map (·.1)).Nodup) (hdisj : ∀ kv ∈ m, kv.1 ∉ ps.map (·.1)) :
    ps.foldl (fun a kv => luaSet a kv.1 kv.2) m = m ++ ps := by
  induction ps generalizing m with
  | nil => simp
  | cons kv rest ih =>
    obtain ⟨k, v⟩ := kv
    simp only [List.foldl_cons]
    have hset : luaSet m k v = m ++ [(k, v)] :=
      luaSet_append m k v (fun kv2 hkv2 hh =>
        hdisj kv2 hkv2 (by rw [hh]; exact List.mem_cons_self _ _))
    simp only [List.map_cons, List.nodup_cons] at hnd
    rw [hset, ih (m ++ [(k, v)]) hnd.2]
    · simp
    · intro kv2 hkv2
      rcases List.mem_append.mp hkv2 with h2 | h2
      · exact fun hmem => hdisj kv2 h2 (List.mem_cons_of_mem _ hmem)
      · simp only [List.mem_singleton] at h2
        subst h2
        exact hnd.1

/-- A user-property head contributes its pair to the scan list. -/
theorem userPairsOf_cons_pair (k v : List Nat) (rest : List MProperty) :
    userPairsOf (⟨38, .pairV k v⟩ :: rest) = (k, v) :: userPairsOf rest := by
  simp [userPairsOf, List.filterMap_cons]

/-- A head that is not a user-property contributes nothing. -/
theorem userPairsOf_cons_ne (p : MProperty) (rest : List MProperty)
    (h : p.identifier ≠ 38) :
    userPairsOf (p :: rest) = userPairsOf rest := by
  cases hpv : p.value <;> simp [userPairsOf, List.filterMap_cons, hpv, h]

/-- Identifier facts read off the decoder switch: the string-pair case
is exactly identifier 38, and no other identifier in the switch keys the
outer table under the user-property name. -/
theorem decodeType_facts {id2 : Nat} {ty : PropType}
    (h : decodeType id2 = some ty) :
    (ty = .STRING_PAIR ↔ id2 = 38) ∧
    (ty ≠ .STRING_PAIR →
      mosquitto_property_identifier_to_string id2 ≠ "user-property") := by
  unfold decodeType at h
  split_ifs at h with h1 h2 h3 h4 h5 h6 h7 <;> cases h
  · fin_cases h1 <;> exact ⟨by decide, by decide⟩
  · fin_cases h2 <;> exact ⟨by decide, by decide⟩
  · fin_cases h3 <;> exact ⟨by decide, by decide⟩
  · subst h4; exact ⟨by decide, by decide⟩
  · fin_cases h5 <;> exact ⟨by decide, by decide⟩
  · fin_cases h6 <;> exact ⟨by decide, by decide⟩
  · subst h7; exact ⟨by decide, fun hc => absurd rfl hc⟩

/-- Running the decode scan over a well-typed list: it cannot fail, the
created flag records whether any user-property was seen, the nested
table is the fold of the user pairs over the incoming nested table, and
the outer table's user-property slot is never written during the scan. -/
theorem decodeLoop_run (props : List MProperty) (outer : List (String × TValue))
    (created : Bool) (inner : List (List Nat × List Nat))
    (hwt : ∀ p ∈ props, wellTyped p = true) :
    ∃ outer2, decodeLoop props outer created inner =
        .ok (outer2, (created || !(userPairsOf props).isEmpty),
          (userPairsOf props).foldl (fun a kv => luaSet a kv.1 kv.2) inner) ∧
      luaLookup outer2 "user-property" = luaLookup outer "user-property" := by
  induction props generalizing outer created inner with
  | nil => exact ⟨outer, by simp [decodeLoop, userPairsOf], rfl⟩
  | cons p rest ih =>
    have hwtp := hwt p (List.mem_cons_self _ _)
    have hwtr : ∀ q ∈ rest, wellTyped q = true :=
      fun q hq => hwt q (List.mem_cons_of_mem _ hq)
    obtain ⟨pid, pv⟩ := p
    unfold wellTyped at hwtp
    cases hdt : decodeType pid with
    | none =>
      rw [hdt] at hwtp
      have h38 : pid ≠ 38 := by
        intro hh
        rw [hh] at hdt
        exact absurd hdt (by decide)
      rw [userPairsOf_cons_ne ⟨pid, pv⟩ rest h38]
      simp only [decodeLoop, hdt]
      exact ih outer created inner hwtr
    | some ty =>
      rw [hdt] at hwtp
      have hfacts := decodeType_facts hdt
      cases ty
      case STRING_PAIR =>
        have h38 : pid = 38 := hfacts.1.mp rfl
        subst h38
        cases pv
        case pairV k v =>
          rw [userPairsOf_cons_pair k v rest]
          simp only [decodeLoop, hdt]
          obtain ⟨outer2, heq, hpres⟩ := ih outer true (luaSet inner k v) hwtr
          refine ⟨outer2, ?_, hpres⟩
          rw [heq]
          simp [Bool.or_true]
        all_goals exact absurd hwtp Bool.false_ne_true
      case BYTE =>
        have h38 : pid ≠ 38 := fun hh => by cases hfacts.1.mpr hh
        have hne : mosquitto_property_identifier_to_string pid ≠ "user-property" :=
          hfacts.2 (by decide)
        cases pv
        case byteV n =>
          rw [userPairsOf_cons_ne ⟨pid, .byteV n⟩ rest h38]
          simp only [decodeLoop, hdt]
          obtain ⟨outer2, heq, hpres⟩ :=
            ih (luaSet outer (mosquitto_property_identifier_to_string pid) (.num n))
              created inner hwtr
          refine ⟨outer2, heq, ?_⟩
          rw [hpres, luaLookup_luaSet, if_neg (fun hh => hne hh.symm)]
        all_goals exact absurd hwtp Bool.false_ne_true
      case INT16 =>
        have h38 : pid ≠ 38 := fun hh => by cases hfacts.1.mpr hh
        have hne : mosquitto_property_identifier_to_string pid ≠ "user-property" :=
          hfacts.2 (by decide)
        cases pv
        case int16V n =>
          rw [userPairsOf_cons_ne ⟨pid, .int16V n⟩ rest h38]
          simp only [decodeLoop, hdt]
          obtain ⟨outer2, heq, hpres⟩ :=
            ih (luaSet outer (mosquitto_property_identifier_to_string pid) (.num n))
              created inner hwtr
          refine ⟨outer2, heq, ?_⟩
          rw [hpres, luaLookup_luaSet, if_neg (fun hh => hne hh.symm)]
        all_goals exact absurd hwtp Bool.false_ne_true
      case INT32 =>
        have h38 : pid ≠ 38 := fun hh => by cases hfacts.1.mpr hh
        have hne : mosquitto_property_identifier_to_string pid ≠ "user-property" :=
          hfacts.2 (by decide)
        cases pv
        case int32V n =>
          rw [userPairsOf_cons_ne ⟨pid, .int32V n⟩ rest h38]
          simp only [decodeLoop, hdt]
          obtain ⟨outer2, heq, hpres⟩ :=
            ih (luaSet outer (mosquitto_property_identifier_to_string pid) (.num n))
              created inner hwtr
          refine ⟨outer2, heq, ?_⟩
          rw [hpres, luaLookup_luaSet, if_neg (fun hh => hne hh.symm)]
        all_goals exact absurd hwtp Bool.false_ne_true
      case VARINT =>
        have h38 : pid ≠ 38 := fun hh => by cases hfacts.1.mpr hh
        have hne : mosquitto_property_identifier_to_string pid ≠ "user-property" :=
          hfacts.2 (by decide)
        cases pv
        case varintV n =>
          rw [userPairsOf_cons_ne ⟨pid, .varintV n⟩ rest h38]
          simp only [decodeLoop, hdt]
          obtain ⟨outer2, heq, hpres⟩ :=
            ih (luaSet outer (mosquitto_property_identifier_to_string pid) (.num n))
              created inner hwtr
          refine ⟨outer2, heq, ?_⟩
          rw [hpres, luaLookup_luaSet, if_neg (fun hh => hne hh.symm)]
        all_goals exact absurd hwtp Bool.false_ne_true
      case STRING =>
        have h38 : pid ≠ 38 := fun hh => by cases hfacts.1.mpr hh
        have hne : mosquitto_property_identifier_to_string pid ≠ "user-property" :=
          hfacts.2 (by decide)
        cases pv
        case strV s =>
          rw [userPairsOf_cons_ne ⟨pid, .strV s⟩ rest h38]
          simp only [decodeLoop, hdt]
          obtain ⟨outer2, heq, hpres⟩ :=
            ih (luaSet outer (mosquitto_property_identifier_to_string pid) (.str s))
              created inner hwtr
          refine ⟨outer2, heq, ?_⟩
          rw [hpres, luaLookup_luaSet, if_neg (fun hh => hne hh.symm)]
        all_goals exact absurd hwtp Bool.false_ne_true
      case BINARY =>
        have h38 : pid ≠ 38 := fun hh => by cases hfacts.1.mpr hh
        have hne : mosquitto_property_identifier_to_string pid ≠ "user-property" :=
          hfacts.2 (by decide)
        cases pv
        case binV s =>
          rw [userPairsOf_cons_ne ⟨pid, .binV s⟩ rest h38]
          simp only [decodeLoop, hdt]
          obtain ⟨outer2, heq, hpres⟩ :=
            ih (luaSet outer (mosquitto_property_identifier_to_string pid) (.str s))
              created inner hwtr
          refine ⟨outer2, heq, ?_⟩
          rw [hpres, luaLookup_luaSet, if_neg (fun hh => hne hh.symm)]
        all_goals exact absurd hwtp Bool.false_ne_true

/-- C7 (amended): decoding a well-typed list accumulates all
user-property pairs into one nested table, created on the first
occurrence and attached under the user-property name exactly once after
the scan (the outer slot is untouched when no such pair occurs); the
nested table is the in-order fold of all pairs, so a pair whose inner
key occurs exactly once reads back its value regardless of wire order,
while a later pair with the same inner key overwrites an earlier one
(so with duplicated inner keys not every pair survives, and the result
depends on wire order). -/
theorem C7_user_property_accumulation (props : List MProperty)
    (outer : List (String × TValue))
    (hwt : ∀ p ∈ props, wellTyped p = true)
    (hdec : create_lua_stack_from_property_list props = .ok outer) :
    (userPairsOf props = [] → luaLookup outer "user-property" = none) ∧
    (userPairsOf props ≠ [] →
      luaLookup outer "user-property"
        = some (.tbl ((userPairsOf props).foldl (fun a kv => luaSet a kv.1 kv.2) [])) ∧
      ∀ k v, (k, v) ∈ userPairsOf props →
        (∀ v2, (k, v2) ∈ userPairsOf props → v2 = v) →
        luaLookup ((userPairsOf props).foldl (fun a kv => luaSet a kv.1 kv.2) []) k
          = some v) := by
  obtain ⟨outer2, heq, hpres⟩ := decodeLoop_run props [] false [] hwt
  unfold create_lua_stack_from_property_list at hdec
  rw [heq] at hdec
  constructor
  · intro hempty
    rw [hempty] at hdec
    simp only [List.isEmpty_nil, Bool.not_true, Bool.or_false, if_false,
               Bool.false_or] at hdec
    have houter : outer = outer2 := by
      cases hdec
      rfl
    rw [houter, hpres]
    rfl
  · intro hne
    have hcreated : (false || !(userPairsOf props).isEmpty) = true := by
      cases hl : (userPairsOf props).isEmpty
      · rfl
      · exact absurd (List.isEmpty_iff.mp hl) hne
    rw [hcreated] at hdec
    simp only [if_true] at hdec
    have houter : outer
        = luaSet outer2 (mosquitto_property_identifier_to_string 38)
            (.tbl ((userPairsOf props).foldl (fun a kv => luaSet a kv.1 kv.2) [])) := by
      cases hdec
      rfl
    constructor
    · rw [houter]
      have h38s : mosquitto_property_identifier_to_string 38 = "user-property" := by
        decide
      rw [h38s, luaLookup_luaSet, if_pos rfl]
    · intro k v hmem huniq
      exact luaLookup_foldl_unique (userPairsOf props) [] k v hmem huniq

/-- C7 counterexample: two user-property entries with the same inner key
decode to a nested table holding only the later value, so the pair of
the earlier entry is not contained, and reversing the wire order changes
the result — refuting the claim that the nested map contains every pair
independent of wire order. -/
theorem C7_duplicate_inner_key_loses_pair :
    create_lua_stack_from_property_list
        [⟨38, .pairV [97] [49]⟩, ⟨38, .pairV [97] [50]⟩]
      = .ok [("user-property", .tbl [([97], [50])])] ∧
    create_lua_stack_from_property_list
        [⟨38, .pairV [97] [50]⟩, ⟨38, .pairV [97] [49]⟩]
      = .ok [("user-property", .tbl [([97], [49])])] ∧
    (([97], [49]) ∈ ([([97], [50])] : List (List Nat × List Nat))) = False := by
  refine ⟨rfl, rfl, by simp⟩

/-- C7 witness: with distinct inner keys, both pairs read back from the
accumulated nested table. -/
theorem C7_user_property_accumulation_witness :
    luaLookup
        ((userPairsOf [⟨38, .pairV [97] [49]⟩, ⟨38, .pairV [98] [50]⟩]).foldl
          (fun a kv => luaSet a kv.1 kv.2) []) [97]
      = some [49] :=
  (((C7_user_property_accumulation
      [⟨38, .pairV [97] [49]⟩, ⟨38, .pairV [98] [50]⟩]
      [("user-property", .tbl [([97], [49]), ([98], [50])])]
      (by decide) (by rfl)).2 (by decide)).2) [97] [49] (by decide)
    (by
      intro v2 h
      have h2 : (([97] : List Nat), v2)
          ∈ [(([97] : List Nat), ([49] : List Nat)), ([98], [50])] := h
      rcases List.mem_cons.mp h2 with h1 | h1
      · exact (Prod.ext_iff.mp h1).2
      · have h3 := List.mem_singleton.mp h1
        have h4 : ([97] : List Nat) = [98] := (Prod.ext_iff.mp h3).1
        exact absurd h4 (by decide))

/-- The per-command check succeeds on a list of user properties: the
user-property identifier is legal for every command and exempt from the
duplicate check. -/
theorem check_all_userprops (cmd : Nat) (ds : List MProperty)
    (h38 : ∀ p ∈ ds, p.identifier = 38) :
    mosquitto_property_check_all cmd ds = MOSQ_ERR_SUCCESS := by
  induction ds with
  | nil => rfl
  | cons p rest ih =>
    have hp := h38 p (List.mem_cons_self _ _)
    have hpv : propValueValid p = true := by
      unfold propValueValid
      rw [hp]
      rw [if_neg (by decide), if_neg (by decide), if_neg (by decide)]
    have hpa : propAllowedForCommand p.identifier cmd = true := by
      rw [hp]
      rfl
    unfold mosquitto_property_check_all
    rw [if_neg (by simp [hpv]), if_neg (by simp [hpa]), if_neg]
    · exact ih (fun q hq => h38 q (List.mem_cons_of_mem _ hq))
    · intro hcon
      exact hcon.1 hp

/-- The decode scan of a pure user-property list touches only the
created flag and the nested table. -/
theorem decodeLoop_userprops (ps : List (List Nat × List Nat))
    (outer : List (String × TValue)) (created : Bool)
    (inner : List (List Nat × List Nat)) :
    decodeLoop (ps.map (fun kv => ⟨38, .pairV kv.1 kv.2⟩)) outer created inner
      = .ok (outer, created || !ps.isEmpty,
             ps.foldl (fun a kv => luaSet a kv.1 kv.2) inner) := by
  induction ps generalizing created inner with
  | nil => simp [decodeLoop]
  | cons kv rest ih =>
    have h38 : decodeType 38 = some PropType.STRING_PAIR := by decide
    simp only [List.map_cons, decodeLoop, h38, List.foldl_cons]
    rw [ih true (luaSet inner kv.1 kv.2)]
    simp

/-- C6 (amended): for every registry property and every valid,
faithfully-representable value (integers within the wire width and the
C int range; strings NUL-free, UTF-8-valid and blobs NUL-free, both
within the 16-bit length; a nonempty nested map with distinct NUL-free
UTF-8 keys and values for user-property) that also satisfies the native
per-property validity checks (byte-flag properties at most 1;
receive-maximum, topic-alias and maximum-packet-size nonzero),
encoding the one-entry map for a command that permits the property and
decoding the resulting list returns exactly the original entry. -/
theorem C6_roundtrip_nulfree (name : String) (id2 : Nat) (ty : PropType)
    (v : LuaValue) (cmd : Nat) (rc0 : Int)
    (hreg : mosquitto_string_to_property_info name = some (id2, ty))
    (hv : validValue ty v)
    (hnat : nativeValueOk id2 v)
    (hallow : propAllowedForCommand id2 cmd = true) :
    ∃ props, create_property_list_from_lua_stack rc0 [(name, v)] cmd = .ok props ∧
      create_lua_stack_from_property_list props = .ok [(name, toT v)] := by
  obtain ⟨hname, hdt, hpair⟩ := registry_facts name id2 ty hreg
  cases ty <;> cases v <;> simp only [validValue] at hv
  case BYTE.num n =>
    simp only [nativeValueOk] at hnat
    have hpvv : propValueValid ⟨id2, .byteV n.toNat⟩ = true := by
      unfold propValueValid
      split_ifs with hf h39 h335
      · have h1 := hnat.1 hf
        show decide (n.toNat ≤ 1) = true
        rw [decide_eq_true_eq]
        omega
      · rfl
      · rfl
      · rfl
    refine ⟨[⟨id2, .byteV n.toNat⟩], ?_, ?_⟩
    · have hloop : encodeLoop [(name, .num n)] rc0 []
          = .done MOSQ_ERR_SUCCESS [⟨id2, .byteV n.toNat⟩] := by
        simp only [encodeLoop, hreg]
        rw [if_neg (by omega)]
        rfl
      simp [create_property_list_from_lua_stack, hloop,
            check_all_singleton cmd ⟨id2, .byteV n.toNat⟩ hpvv hallow]
    · simp only [create_lua_stack_from_property_list, decodeLoop, hdt, hname]
      rfl
  case INT16.num n =>
    simp only [nativeValueOk] at hnat
    have hpvv : propValueValid ⟨id2, .int16V n.toNat⟩ = true := by
      unfold propValueValid
      split_ifs with hf h39 h335
      · rfl
      · rfl
      · have h1 := hnat.2.2 h335
        show decide (n.toNat ≠ 0) = true
        rw [decide_eq_true_eq]
        omega
      · rfl
    refine ⟨[⟨id2, .int16V n.toNat⟩], ?_, ?_⟩
    · have hloop : encodeLoop [(name, .num n)] rc0 []
          = .done MOSQ_ERR_SUCCESS [⟨id2, .int16V n.toNat⟩] := by
        simp only [encodeLoop, hreg]
        rw [if_neg (by omega)]
        rfl
      simp [create_property_list_from_lua_stack, hloop,
            check_all_singleton cmd ⟨id2, .int16V n.toNat⟩ hpvv hallow]
    · simp only [create_lua_stack_from_property_list, decodeLoop, hdt, hname]
      rfl
  case INT32.num n =>
    simp only [INT_MAX] at hv
    simp only [nativeValueOk] at hnat
    have hpvv : propValueValid ⟨id2, .int32V n.toNat⟩ = true := by
      unfold propValueValid
      split_ifs with hf h39 h335
      · rfl
      · have h1 := hnat.2.1 h39
        show decide (n.toNat ≠ 0) = true
        rw [decide_eq_true_eq]
        omega
      · rfl
      · rfl
    refine ⟨[⟨id2, .int32V n.toNat⟩], ?_, ?_⟩
    · have hloop : encodeLoop [(name, .num n)] rc0 []
          = .done MOSQ_ERR_SUCCESS [⟨id2, .int32V n.toNat⟩] := by
        simp only [encodeLoop, hreg]
        rw [if_neg (by omega)]
        rfl
      simp [create_property_list_from_lua_stack, hloop,
            check_all_singleton cmd ⟨id2, .int32V n.toNat⟩ hpvv hallow]
    · simp only [create_lua_stack_from_property_list, decodeLoop, hdt, hname]
      rfl
  case VARINT.num n =>
    have hpvv : propValueValid ⟨id2, .varintV n.toNat⟩ = true := by
      unfold propValueValid
      split_ifs <;> rfl
    refine ⟨[⟨id2, .varintV n.toNat⟩], ?_, ?_⟩
    · have hloop : encodeLoop [(name, .num n)] rc0 []
          = .done MOSQ_ERR_SUCCESS [⟨id2, .varintV n.toNat⟩] := by
        simp only [encodeLoop, hreg]
        rw [if_neg (by omega), if_pos (by omega)]
        rfl
      simp [create_property_list_from_lua_stack, hloop,
            check_all_singleton cmd ⟨id2, .varintV n.toNat⟩ hpvv hallow]
    · simp only [create_lua_stack_from_property_list, decodeLoop, hdt, hname]
      rfl
  case STRING.lstr s =>
    have hcs : cstr s = s := cstr_of_not_mem hv.2.1
    have hpvv : propValueValid ⟨id2, .strV s⟩ = true := by
      unfold propValueValid
      split_ifs <;> rfl
    refine ⟨[⟨id2, .strV s⟩], ?_, ?_⟩
    · have hloop : encodeLoop [(name, .lstr s)] rc0 []
          = .done MOSQ_ERR_SUCCESS [⟨id2, .strV s⟩] := by
        simp only [encodeLoop, hreg, hcs]
        rw [if_pos hv.2.2]
        rfl
      simp [create_property_list_from_lua_stack, hloop,
            check_all_singleton cmd ⟨id2, .strV s⟩ hpvv hallow]
    · simp only [create_lua_stack_from_property_list, decodeLoop, hdt, hname]
      rfl
  case BINARY.lstr s =>
    have hcs : cstr s = s := cstr_of_not_mem hv.2
    have hpvv : propValueValid ⟨id2, .binV s⟩ = true := by
      unfold propValueValid
      split_ifs <;> rfl
    refine ⟨[⟨id2, .binV s⟩], ?_, ?_⟩
    · have hloop : encodeLoop [(name, .lstr s)] rc0 []
          = .done MOSQ_ERR_SUCCESS [⟨id2, .binV s⟩] := by
        simp only [encodeLoop, hreg, hcs]
        rw [if_neg (by omega)]
        rfl
      simp [create_property_list_from_lua_stack, hloop,
            check_all_singleton cmd ⟨id2, .binV s⟩ hpvv hallow]
    · simp only [create_lua_stack_from_property_list, decodeLoop, hdt, hname]
      rfl
  case STRING_PAIR.table m =>
    have h38 : id2 = 38 := hpair.mp rfl
    subst h38
    have hmap : m.map (fun kv => (⟨38, .pairV (cstr kv.1) (cstr kv.2)⟩ : MProperty))
        = m.map (fun kv => ⟨38, .pairV kv.1 kv.2⟩) := by
      apply List.map_congr_left
      intro kv hkv
      rw [cstr_of_not_mem (hv.2.2 kv hkv).1.1, cstr_of_not_mem (hv.2.2 kv hkv).1.2]
    have hpairs : ∀ kv ∈ m, mosquitto_validate_utf8 (cstr kv.1) = true ∧
        mosquitto_validate_utf8 (cstr kv.2) = true := by
      intro kv hkv
      obtain ⟨⟨hn1, hn2⟩, hu1, hu2⟩ := hv.2.2 kv hkv
      rw [cstr_of_not_mem hn1, cstr_of_not_mem hn2]
      exact ⟨hu1, hu2⟩
    refine ⟨m.map (fun kv => ⟨38, .pairV kv.1 kv.2⟩), ?_, ?_⟩
    · have hloop : encodeLoop [(name, .table m)] rc0 []
          = .done MOSQ_ERR_SUCCESS (m.map (fun kv => ⟨38, .pairV kv.1 kv.2⟩)) := by
        simp only [encodeLoop, hreg]
        rw [addStringPairLoop_valid m [] hpairs]
        rw [List.nil_append, hmap]
        simp [encodeLoop]
      have hcheck := check_all_userprops cmd (m.map (fun kv => ⟨38, .pairV kv.1 kv.2⟩))
        (by
          intro p hp
          obtain ⟨kv, _, rfl⟩ := List.mem_map.mp hp
          rfl)
      simp [create_property_list_from_lua_stack, hloop, hcheck]
    · rw [create_lua_stack_from_property_list, decodeLoop_userprops m [] false []]
      have hm : m.isEmpty = false := by
        cases hme : m.isEmpty
        · rfl
        · exact absurd (List.isEmpty_iff.mp hme) hv.1
      rw [hm]
      simp only [Bool.not_false, Bool.or_true, if_true]
      rw [foldl_luaSet_nodup m [] hv.2.1 (by intro kv h; cases h)]
      have h38s : mosquitto_property_identifier_to_string 38 = name := hname
      rw [h38s]
      rfl

/-- C6 counterexample: correlation-data is a Binary property, and the
blob 97 0 98 is a valid binary value per the wire type; encoding then
decoding returns the truncated blob 97, not the original: the
round-trip claim fails for binary values with an embedded NUL byte. -/
theorem C6_roundtrip_fails_on_nul_blob :
    create_property_list_from_lua_stack 0
        [("correlation-data", .lstr [97, 0, 98])] CMD_PUBLISH
      = .ok [⟨9, .binV [97]⟩] ∧
    create_lua_stack_from_property_list [⟨9, .binV [97]⟩]
      = .ok [("correlation-data", .str [97])] ∧
    TValue.str [97] ≠ toT (.lstr [97, 0, 98]) := by
  refine ⟨rfl, rfl, by decide⟩

/-- C6 witness: content-type with a NUL-free string value round-trips
under a publish command. -/
theorem C6_roundtrip_nulfree_witness :
    ∃ props, create_property_list_from_lua_stack 0
        [("content-type", .lstr [116])] CMD_PUBLISH = .ok props ∧
      create_lua_stack_from_property_list props
        = .ok [("content-type", toT (.lstr [116]))] :=
  C6_roundtrip_nulfree "content-type" 3 .STRING (.lstr [116]) CMD_PUBLISH 0
    (by decide) ⟨by decide, by decide, by decide⟩ trivial (by decide)

end Mosq
